import Mathlib

/-!
Verification of the OKR progress-consistency engine of `agiemme-planner`.

The engine lives in:
* `backend/src/migrations` (SQL tables, CHECK constraints, triggers:
  `update_key_result_status`, `calculate_completion_percentage`,
  `update_key_result_from_progress`),
* `backend/src/models/{objective,key-result,progress-update}.ts`,
* `backend/src/services/objective-service.ts` (ObjectiveService and
  KeyResultService),
* `backend/src/api/routes/objectives.ts` (the PUT status handler).

Embedding conventions:
* SQL `DECIMAL(10,2)` values and JS numbers are modelled as exact
  rationals (`ℚ`); dates (`DATE`) as integers counting days (`ℤ`), so
  `deadline - CURRENT_DATE` is plain integer subtraction.
* Each `pool.query` call is a single SQL statement and hence a single
  implicit transaction: it either commits, applying the statement
  together with its triggers and constraint checks, or raises a database
  error and leaves the store untouched.  The services issue several such
  statements in a row without an enclosing transaction, so a service
  call is modelled as a function from the committed store to a result
  together with the store as committed when the call returns or throws.
* `createError(message, status, code)` errors are modelled by their
  status code and code string; raw database errors (CHECK / foreign-key
  violations) by the violated constraint's name.
-/

namespace AgiemmePlanner

/-- `key_result_status` enum of migration 001. -/
inductive KeyResultStatus where
  | not_started
  | in_progress
  | completed
  | at_risk
deriving DecidableEq, Repr

/-- `objective_status` enum of migration 001. -/
inductive ObjectiveStatus where
  | active
  | completed
  | archived
  | abandoned
deriving DecidableEq, Repr

/-- Errors observable from a service call: `app s c` is a
`createError(_, s, c)` thrown by the TypeScript layer, `db c` a database
error naming the violated constraint. -/
inductive AppError where
  | app (statusCode : Nat) (code : String)
  | db (constraint : String)
deriving DecidableEq, Repr

deriving instance DecidableEq for Except

/-- SQL `LEAST` of two values / JavaScript `Math.min`, written as an
explicit conditional so that concrete runs reduce in the kernel; equal
to `min` (`least_eq_min` below). -/
def least (a b : ℚ) : ℚ :=
  if a ≤ b then a else b

/-- SQL `calculate_completion_percentage` (migration `key_results`):
`IF target_val = 0 THEN RETURN 0; RETURN LEAST((current_val / target_val) * 100, 100)`. -/
def calculate_completion_percentage (current_val target_val : ℚ) : ℚ :=
  if target_val = 0 then 0
  else least (current_val / target_val * 100) 100

/-- SQL trigger function `update_key_result_status` (migration
`key_results`), fired on INSERT and on UPDATE of `current_value`,
`target_value` or `deadline`; `today` is `CURRENT_DATE`. -/
def update_key_result_status (current_value target_value : ℚ)
    (deadline today : ℤ) : KeyResultStatus :=
  let completion_pct := calculate_completion_percentage current_value target_value
  let days_until_deadline := deadline - today
  if completion_pct ≥ 100 then .completed
  else if current_value > 0 then
    if days_until_deadline < 14 ∧ completion_pct < 50 then .at_risk
    else .in_progress
  else .not_started

/-- TypeScript `calculateCompletionPercentage` of
`models/key-result.ts`: `targetValue === 0 ? 0 : Math.min(currentValue / targetValue * 100, 100)`. -/
def calculateCompletionPercentage (currentValue targetValue : ℚ) : ℚ :=
  if targetValue = 0 then 0
  else least (currentValue / targetValue * 100) 100

/-- JavaScript `Math.round`: round half towards positive infinity. -/
def jsRound (x : ℚ) : ℤ := ⌊x + 1 / 2⌋

/-- The `completionPercentage` field `mapRowToKeyResult` exposes:
`Math.round(completionPercentage * 100) / 100` (two decimal places). -/
def exposedCompletionPercentage (currentValue targetValue : ℚ) : ℚ :=
  (jsRound (calculateCompletionPercentage currentValue targetValue * 100) : ℚ) / 100

/-- Status derivation exactly as the specification words it, first
matching rule in priority order: completed if percentage at 100, then
not-started on zero current value, then at-risk, else in-progress.
Written from the spec for comparison against `update_key_result_status`. -/
def specPriorityStatus (targetValue currentValue : ℚ)
    (deadline today : ℤ) : KeyResultStatus :=
  let pct := if targetValue = 0 then 0
             else min (currentValue / targetValue * 100) 100
  if pct ≥ 100 then .completed
  else if currentValue = 0 then .not_started
  else if deadline - today < 14 ∧ pct < 50 then .at_risk
  else .in_progress

/-- Objective completion decision inlined in
`checkAndUpdateObjectiveCompletion`:
`keyResults.length > 0 && keyResults.every((kr) => kr.status === 'completed')`,
taken over the sibling statuses. -/
def shouldCompleteObjective (siblingStatuses : List KeyResultStatus) : Bool :=
  siblingStatuses.length > 0 &&
    siblingStatuses.all (fun st => st = KeyResultStatus.completed)

/-- Row of the `objectives` table (migration 004); `category` kept as its
enum literal string, timestamps beyond `target_date` omitted as no
engine rule reads them. -/
structure ObjectiveRow where
  id : Nat
  userId : Nat
  title : String
  description : Option String
  category : String
  targetDate : ℤ
  status : ObjectiveStatus
deriving DecidableEq, Repr

/-- Row of the `key_results` table (migration in `part_006`). -/
structure KeyResultRow where
  id : Nat
  objectiveId : Nat
  description : String
  targetValue : ℚ
  currentValue : ℚ
  unit : String
  deadline : ℤ
  status : KeyResultStatus
deriving DecidableEq, Repr

/-- Row of the `progress_updates` table (migration in `part_007`). -/
structure ProgressUpdateRow where
  id : Nat
  keyResultId : Nat
  valueRecorded : ℚ
  notes : Option String
  recordedAt : ℤ
deriving DecidableEq, Repr

/-- The relational store.  Lists keep insertion order, which is
`created_at ASC` order for `key_results` (the order
`findKeyResultsByObjectiveId` returns).  `nextId` generates fresh
primary keys. -/
structure DBState where
  objectives : List ObjectiveRow
  keyResults : List KeyResultRow
  progressUpdates : List ProgressUpdateRow
  nextId : Nat
deriving DecidableEq, Repr

/-- `findObjectiveById` of `models/objective.ts` (SELECT by primary key). -/
def findObjectiveById (s : DBState) (id : Nat) : Option ObjectiveRow :=
  s.objectives.find? (fun o => o.id = id)

/-- `findKeyResultById` of `models/key-result.ts`. -/
def findKeyResultById (s : DBState) (id : Nat) : Option KeyResultRow :=
  s.keyResults.find? (fun kr => kr.id = id)

/-- `findKeyResultsByObjectiveId` of `models/key-result.ts`
(`WHERE objective_id = $1 ORDER BY created_at ASC`). -/
def findKeyResultsByObjectiveId (s : DBState) (objectiveId : Nat) :
    List KeyResultRow :=
  s.keyResults.filter (fun kr => kr.objectiveId = objectiveId)

/-- Length of an optional `TEXT` value, for the notes CHECK constraint. -/
def optionalLength (notes : Option String) : Nat :=
  match notes with
  | none => 0
  | some n => n.length

/-- The single statement `INSERT INTO progress_updates ...` issued by
`createProgressUpdate` of `models/progress-update.ts`, together with
everything the database runs inside that statement's transaction:

* CHECK `progress_updates_value_positive` (`value_recorded >= 0`) and
  `progress_updates_notes_length` (null or at most 1000 characters);
* foreign key `key_result_id REFERENCES key_results(id)`;
* the AFTER INSERT trigger `update_key_result_from_progress`, which
  runs `UPDATE key_results SET current_value = NEW.value_recorded`,
  firing in turn the BEFORE UPDATE trigger `update_key_result_status`
  (recompute `status` with `CURRENT_DATE = today`) and re-checking
  `key_results_current_value_valid`
  (`current_value >= 0 AND current_value <= target_value`).

Any violation aborts the whole statement: nothing is committed. -/
def insertProgressUpdateStmt (s : DBState) (keyResultId : Nat)
    (valueRecorded : ℚ) (notes : Option String) (today : ℤ) :
    Except AppError (ProgressUpdateRow × DBState) :=
  if valueRecorded < 0 then
    .error (.db "progress_updates_value_positive")
  else if optionalLength notes > 1000 then
    .error (.db "progress_updates_notes_length")
  else
    match findKeyResultById s keyResultId with
    | none => .error (.db "progress_updates_key_result_id_fkey")
    | some kr =>
      if valueRecorded > kr.targetValue then
        .error (.db "key_results_current_value_valid")
      else
        let kr' : KeyResultRow :=
          { kr with
            currentValue := valueRecorded
            status := update_key_result_status valueRecorded kr.targetValue
              kr.deadline today }
        let pu : ProgressUpdateRow :=
          { id := s.nextId
            keyResultId := keyResultId
            valueRecorded := valueRecorded
            notes := notes
            recordedAt := today }
        .ok (pu,
          { s with
            keyResults :=
              s.keyResults.map (fun r => if r.id = keyResultId then kr' else r)
            progressUpdates := s.progressUpdates ++ [pu]
            nextId := s.nextId + 1 })

/-- The statement `UPDATE objectives SET status = $1 WHERE id = $2`
issued by `ObjectiveModel.updateObjective` when only `status` is given.
An UPDATE matching no row commits trivially and returns no row (the
model function then returns null).  On a matched row the database
re-evaluates CHECK `objectives_target_date_future`
(`target_date >= CURRENT_DATE`) against the new row; a violation aborts
the statement. -/
def updateObjectiveStatusStmt (s : DBState) (id : Nat)
    (status : ObjectiveStatus) (today : ℤ) :
    Except AppError (Option ObjectiveRow × DBState) :=
  match findObjectiveById s id with
  | none => .ok (none, s)
  | some o =>
    if o.targetDate < today then
      .error (.db "objectives_target_date_future")
    else
      .ok (some { o with status := status },
        { s with objectives := s.objectives.map (fun r =>
          if r.id = id then { o with status := status } else r) })

/-- The statement `INSERT INTO objectives ...` issued by
`ObjectiveModel.createObjective`: CHECK `objectives_title_length`
(5 to 200 characters) and `objectives_target_date_future`
(`target_date >= CURRENT_DATE`); `status` defaults to `'active'`. -/
def insertObjectiveStmt (s : DBState) (userId : Nat) (title : String)
    (description : Option String) (category : String) (targetDate : ℤ)
    (today : ℤ) : Except AppError (ObjectiveRow × DBState) :=
  if title.length < 5 ∨ title.length > 200 then
    .error (.db "objectives_title_length")
  else if targetDate < today then
    .error (.db "objectives_target_date_future")
  else
    let o : ObjectiveRow :=
      { id := s.nextId
        userId := userId
        title := title
        description := description
        category := category
        targetDate := targetDate
        status := .active }
    .ok (o, { s with objectives := s.objectives ++ [o], nextId := s.nextId + 1 })

/-- The statement `INSERT INTO key_results ...` issued by
`KeyResultModel.createKeyResult` with `current_value` defaulted to 0:
foreign key to `objectives`, CHECK `key_results_description_length`
(10 to 300), `key_results_target_value_positive` (`target_value > 0`),
`key_results_current_value_valid`, and the BEFORE INSERT trigger
`update_key_result_status` computing the initial `status`. -/
def insertKeyResultStmt (s : DBState) (objectiveId : Nat)
    (description : String) (targetValue : ℚ) (unit : String)
    (deadline : ℤ) (today : ℤ) : Except AppError (KeyResultRow × DBState) :=
  if (findObjectiveById s objectiveId).isNone then
    .error (.db "key_results_objective_id_fkey")
  else if description.length < 10 ∨ description.length > 300 then
    .error (.db "key_results_description_length")
  else if ¬ targetValue > 0 then
    .error (.db "key_results_target_value_positive")
  else if ¬ ((0 : ℚ) ≤ targetValue) then
    .error (.db "key_results_current_value_valid")
  else
    let kr : KeyResultRow :=
      { id := s.nextId
        objectiveId := objectiveId
        description := description
        targetValue := targetValue
        currentValue := 0
        unit := unit
        deadline := deadline
        status := update_key_result_status 0 targetValue deadline today }
    .ok (kr, { s with keyResults := s.keyResults ++ [kr], nextId := s.nextId + 1 })

/-- The statement `DELETE FROM key_results WHERE id = $1` issued by
`KeyResultModel.deleteKeyResult`, with `ON DELETE CASCADE` removing the
key result's progress updates; returns whether a row was deleted. -/
def deleteKeyResultStmt (s : DBState) (id : Nat) : Bool × DBState :=
  (s.keyResults.any (fun kr => kr.id = id),
    { s with
      keyResults := s.keyResults.filter (fun kr => ¬ kr.id = id)
      progressUpdates := s.progressUpdates.filter (fun pu => ¬ pu.keyResultId = id) })

/-- `ObjectiveService.checkAndUpdateObjectiveCompletion`: read the
objective's key results, and if the list is non-empty with every status
`'completed'`, issue `updateObjective(objectiveId, { status: 'completed' })`.
The read and the update are separate statements; an error in the update
propagates as the thrown database error. -/
def checkAndUpdateObjectiveCompletion (s : DBState) (objectiveId : Nat)
    (today : ℤ) : Except AppError DBState :=
  if shouldCompleteObjective
      ((findKeyResultsByObjectiveId s objectiveId).map (fun kr => kr.status)) then
    match updateObjectiveStatusStmt s objectiveId .completed today with
    | .error e => .error e
    | .ok (_, s') => .ok s'
  else
    .ok s

/-- `UpdateProgressRequest` of the KeyResultService. -/
structure UpdateProgressRequest where
  keyResultId : Nat
  valueRecorded : ℚ
  notes : Option String
deriving DecidableEq, Repr

/-- `KeyResultService.updateProgress`: look the key result up (404 if
absent), reject negative values with `createError(400,
'INVALID_PROGRESS_VALUE')`, insert the progress update (whose trigger
rewrites the key result), then run the objective-completion check.  The
second component is the store as committed when the call returns or
throws; there is no enclosing transaction, so a statement committed
before a later failure stays committed. -/
def updateProgress (s : DBState) (req : UpdateProgressRequest) (today : ℤ) :
    Except AppError ProgressUpdateRow × DBState :=
  match findKeyResultById s req.keyResultId with
  | none => (.error (.app 404 "KEY_RESULT_NOT_FOUND"), s)
  | some keyResult =>
    if req.valueRecorded < 0 then
      (.error (.app 400 "INVALID_PROGRESS_VALUE"), s)
    else
      match insertProgressUpdateStmt s req.keyResultId req.valueRecorded
          req.notes today with
      | .error e => (.error e, s)
      | .ok (progressUpdate, s1) =>
        match checkAndUpdateObjectiveCompletion s1 keyResult.objectiveId today with
        | .error e => (.error e, s1)
        | .ok s2 => (.ok progressUpdate, s2)

/-- The committed stores observable during `updateProgress`, one entry
per mutating statement that commits, in order: the progress-update
insert (with its trigger), then — only when the completion rule fires
and its UPDATE succeeds — the objective transition. -/
def updateProgressCommits (s : DBState) (req : UpdateProgressRequest)
    (today : ℤ) : List DBState :=
  match findKeyResultById s req.keyResultId with
  | none => []
  | some keyResult =>
    if req.valueRecorded < 0 then []
    else
      match insertProgressUpdateStmt s req.keyResultId req.valueRecorded
          req.notes today with
      | .error _ => []
      | .ok (_, s1) =>
        let keyResults := findKeyResultsByObjectiveId s1 keyResult.objectiveId
        if shouldCompleteObjective (keyResults.map (fun kr => kr.status)) then
          match updateObjectiveStatusStmt s1 keyResult.objectiveId .completed today with
          | .error _ => [s1]
          | .ok (_, s2) => [s1, s2]
        else [s1]

/-- One entry of `CreateObjectiveRequest.keyResults`. -/
structure KeyResultSpec where
  description : String
  targetValue : ℚ
  unit : String
  deadline : ℤ
deriving DecidableEq, Repr

/-- `CreateObjectiveRequest` of the ObjectiveService. -/
structure CreateObjectiveRequest where
  userId : Nat
  title : String
  description : Option String
  category : String
  targetDate : ℤ
  keyResults : List KeyResultSpec
deriving DecidableEq, Repr

/-- The `Promise.all` over `KeyResultModel.createKeyResult` calls in
`createObjectiveWithKeyResults`: every insert statement is issued (a
rejection does not cancel the others), each successful one commits, and
the first error — if any — is what the awaited `Promise.all` rejects
with.  Folds left over the specs, carrying the store and the first
error. -/
def insertAllKeyResults (s : DBState) (objectiveId : Nat)
    (specs : List KeyResultSpec) (today : ℤ) : DBState × Option AppError :=
  match specs with
  | [] => (s, none)
  | kr :: rest =>
    match insertKeyResultStmt s objectiveId kr.description kr.targetValue
        kr.unit kr.deadline today with
    | .error e => ((insertAllKeyResults s objectiveId rest today).1, some e)
    | .ok (_, s') => insertAllKeyResults s' objectiveId rest today

/-- `ObjectiveService.createObjectiveWithKeyResults`: validate the
2–5 key-result count (`createError(400, 'INVALID_KEY_RESULTS_COUNT')`),
validate every deadline against the target date (`createError(400,
'INVALID_DEADLINE')`), insert the objective, then insert all key
results via `Promise.all`.  No transaction wraps the statements. -/
def createObjectiveWithKeyResults (s : DBState)
    (data : CreateObjectiveRequest) (today : ℤ) :
    Except AppError Unit × DBState :=
  if data.keyResults.length < 2 ∨ data.keyResults.length > 5 then
    (.error (.app 400 "INVALID_KEY_RESULTS_COUNT"), s)
  else if (data.keyResults.filter (fun kr => kr.deadline > data.targetDate)).length > 0 then
    (.error (.app 400 "INVALID_DEADLINE"), s)
  else
    match insertObjectiveStmt s data.userId data.title data.description
        data.category data.targetDate today with
    | .error e => (.error e, s)
    | .ok (objective, s1) =>
      match insertAllKeyResults s1 objective.id data.keyResults today with
      | (s2, some e) => (.error e, s2)
      | (s2, none) => (.ok (), s2)

/-- `KeyResultService.deleteKeyResult`: return false when the key result
does not exist; throw `createError(400, 'MINIMUM_KEY_RESULTS_REQUIRED')`
when the objective currently has at most 2 key results; otherwise issue
the DELETE (cascading to progress updates). -/
def deleteKeyResult (s : DBState) (keyResultId : Nat) :
    Except AppError Bool × DBState :=
  match findKeyResultById s keyResultId with
  | none => (.ok false, s)
  | some keyResult =>
    if (findKeyResultsByObjectiveId s keyResult.objectiveId).length ≤ 2 then
      (.error (.app 400 "MINIMUM_KEY_RESULTS_REQUIRED"), s)
    else
      (.ok (deleteKeyResultStmt s keyResultId).1, (deleteKeyResultStmt s keyResultId).2)

/-- Status values the PUT `/api/objectives/:id` handler accepts
(`validStatuses` in `routes/objectives.ts`). -/
def validStatuses : List String :=
  ["active", "completed", "archived", "abandoned"]

/-- Parse one of the four enum literals; defaults are unreachable for
members of `validStatuses`. -/
def parseObjectiveStatus (status : String) : ObjectiveStatus :=
  if status = "completed" then .completed
  else if status = "archived" then .archived
  else if status = "abandoned" then .abandoned
  else .active

/-- The PUT `/api/objectives/:id` handler of `routes/objectives.ts`,
restricted to a request whose body carries only `status` (ownership
checks, out of the engine's scope, elided): 404 when the objective is
missing, `createError(400, 'INVALID_STATUS')` when the string is not an
enum literal, otherwise `updateObjective(id, { status })`, which writes
the requested status with no transition restriction. -/
def putObjectiveStatus (s : DBState) (id : Nat) (status : String)
    (today : ℤ) : Except AppError Unit × DBState :=
  match findObjectiveById s id with
  | none => (.error (.app 404 "OBJECTIVE_NOT_FOUND"), s)
  | some _ =>
    if ¬ validStatuses.contains status then
      (.error (.app 400 "INVALID_STATUS"), s)
    else
      match updateObjectiveStatusStmt s id (parseObjectiveStatus status) today with
      | .error e => (.error e, s)
      | .ok (_, s') => (.ok (), s')

/-- The per-entry loop of `KeyResultService.batchUpdateProgress`:
for each entry, look the key result up (throwing
`createError(404, 'KEY_RESULT_NOT_FOUND')` on a miss, with everything
already committed staying committed), collect the objective id into the
set, and insert the progress update.  No negative-value check exists on
this path. -/
def batchLoop (s : DBState) (updates : List UpdateProgressRequest)
    (today : ℤ) (results : List ProgressUpdateRow) (objectiveIds : List Nat) :
    Except AppError (List ProgressUpdateRow × List Nat) × DBState :=
  match updates with
  | [] => (.ok (results, objectiveIds), s)
  | u :: rest =>
    match findKeyResultById s u.keyResultId with
    | none => (.error (.app 404 "KEY_RESULT_NOT_FOUND"), s)
    | some keyResult =>
      match insertProgressUpdateStmt s u.keyResultId u.valueRecorded u.notes today with
      | .error e => (.error e, s)
      | .ok (pu, s') =>
        batchLoop s' rest today (results ++ [pu])
          (if objectiveIds.contains keyResult.objectiveId then objectiveIds
           else objectiveIds ++ [keyResult.objectiveId])

/-- The completion sweep after the batch loop: run
`checkAndUpdateObjectiveCompletion` for each collected objective id in
order, keeping what committed before a failure. -/
def checkAllObjectives (s : DBState) (objectiveIds : List Nat) (today : ℤ) :
    Except AppError Unit × DBState :=
  match objectiveIds with
  | [] => (.ok (), s)
  | oid :: rest =>
    match checkAndUpdateObjectiveCompletion s oid today with
    | .error e => (.error e, s)
    | .ok s' => checkAllObjectives s' rest today

/-- `KeyResultService.batchUpdateProgress`: the sequential loop over the
entries, then the completion sweep over the affected objectives.  Each
statement commits on its own. -/
def batchUpdateProgress (s : DBState) (updates : List UpdateProgressRequest)
    (today : ℤ) : Except AppError (List ProgressUpdateRow) × DBState :=
  match batchLoop s updates today [] [] with
  | (.error e, s') => (.error e, s')
  | (.ok (results, objectiveIds), s') =>
    match checkAllObjectives s' objectiveIds today with
    | (.error e, s2) => (.error e, s2)
    | (.ok _, s2) => (.ok results, s2)

/-! Concrete fixtures used by counterexamples and witnesses: one
objective (id 1) with two key results (ids 2 and 3), the first already
completed, dates counted in days. -/

/-- Fixture: an active objective, target date day 100. -/
def exObjective : ObjectiveRow :=
  ⟨1, 1, "Learn Go OKR", none, "skills", 100, .active⟩

/-- Fixture: a key result already at its target (status completed). -/
def exKrDone : KeyResultRow :=
  ⟨2, 1, "first key result", 10, 10, "hours", 50, .completed⟩

/-- Fixture: a key result halfway to its target. -/
def exKrHalf : KeyResultRow :=
  ⟨3, 1, "second key result", 10, 5, "hours", 50, .in_progress⟩

/-- Fixture: the store holding `exObjective` with its two key results. -/
def exState : DBState := ⟨[exObjective], [exKrDone, exKrHalf], [], 10⟩

/-- Fixture: `exState` with the objective archived. -/
def exStateArchived : DBState :=
  ⟨[{ exObjective with status := .archived }], [exKrDone, exKrHalf], [], 10⟩

/-- Fixture: `exState` with the objective abandoned. -/
def exStateAbandoned : DBState :=
  ⟨[{ exObjective with status := .abandoned }], [exKrDone, exKrHalf], [], 10⟩

/-- Fixture: `exState` with the objective's target date already past
(day -1, calls made at day 0). -/
def exStatePastDue : DBState :=
  ⟨[{ exObjective with targetDate := -1 }], [exKrDone, exKrHalf], [], 10⟩

/-- Fixture: the store committed by `updateProgress exState ⟨3, 10, none⟩ 0`:
progress logged, both key results completed, objective completed. -/
def exStateFinished : DBState :=
  ⟨[{ exObjective with status := .completed }],
   [exKrDone, { exKrHalf with currentValue := 10, status := .completed }],
   [⟨10, 3, 10, none, 0⟩], 11⟩

/-- Fixture: the store after the first entry of the C10 witness batch
(value 7 recorded on key result 3), before the failing second entry. -/
def exStateBatchMid : DBState :=
  ⟨[exObjective],
   [exKrDone, { exKrHalf with currentValue := 7, status := .in_progress }],
   [⟨10, 3, 7, none, 0⟩], 11⟩

/-- Fixture: a key result not yet started whose deadline (day 20) makes
the at-risk window time-dependent. -/
def exKrTrend : KeyResultRow :=
  ⟨3, 1, "second key result", 10, 0, "hours", 20, .not_started⟩

/-- Fixture: the store holding `exObjective` with `exKrDone` and
`exKrTrend`. -/
def exStateTrend : DBState := ⟨[exObjective], [exKrDone, exKrTrend], [], 10⟩

/-- Fixture: a create request whose second key-result description is
shorter than the 10-character CHECK minimum (passes every service-level
validation). -/
def exBadCreateRequest : CreateObjectiveRequest :=
  ⟨1, "Learn Rust well", none, "skills", 100,
   [⟨"long enough description", 10, "hours", 50⟩, ⟨"short", 10, "hours", 50⟩]⟩

/-! Helper lemmas about the statement-level operations. -/

/-- A `find?` over a map that rewrites rows without changing whether the
predicate holds commutes with the map. -/
theorem find?_map_of_pred_eq {α : Type} (f : α → α) (p : α → Bool)
    (hp : ∀ a, p (f a) = p a) :
    ∀ l : List α, (l.map f).find? p = (l.find? p).map f := by
  intro l
  induction l with
  | nil => rfl
  | cons a l ih =>
    by_cases h : p a = true
    · simp [List.find?, hp, h]
    · have h' : p a = false := by
        cases hpa : p a
        · rfl
        · exact absurd hpa h
      simp [List.find?, hp, h', ih]

/-- Shape of a committed progress-update insert: what the statement's
transaction (insert, trigger, checks) leaves in the store. -/
theorem insertProgressUpdateStmt_ok {s : DBState} {keyResultId : Nat}
    {v : ℚ} {notes : Option String} {today : ℤ} {pu : ProgressUpdateRow}
    {s' : DBState}
    (h : insertProgressUpdateStmt s keyResultId v notes today = .ok (pu, s')) :
    ∃ kr, findKeyResultById s keyResultId = some kr ∧
      0 ≤ v ∧ v ≤ kr.targetValue ∧
      pu = ⟨s.nextId, keyResultId, v, notes, today⟩ ∧
      s' = { s with
        keyResults := s.keyResults.map (fun r =>
          if r.id = keyResultId then
            { kr with
              currentValue := v
              status := update_key_result_status v kr.targetValue kr.deadline today }
          else r)
        progressUpdates := s.progressUpdates ++ [pu]
        nextId := s.nextId + 1 } := by
  unfold insertProgressUpdateStmt at h
  split at h
  · exact absurd h (by simp)
  · rename_i hneg
    split at h
    · exact absurd h (by simp)
    · split at h
      · exact absurd h (by simp)
      · rename_i kr hkr
        split at h
        · exact absurd h (by simp)
        · rename_i hgt
          simp only [Except.ok.injEq, Prod.mk.injEq] at h
          obtain ⟨hpu, hs⟩ := h
          subst hpu
          exact ⟨kr, hkr, le_of_not_lt hneg, le_of_not_lt hgt, rfl, hs.symm⟩

/-- A committed progress-update insert leaves `objectives` alone. -/
theorem insertProgressUpdateStmt_objectives {s : DBState} {keyResultId : Nat}
    {v : ℚ} {notes : Option String} {today : ℤ} {pu : ProgressUpdateRow}
    {s' : DBState}
    (h : insertProgressUpdateStmt s keyResultId v notes today = .ok (pu, s')) :
    s'.objectives = s.objectives := by
  obtain ⟨kr, -, -, -, -, hs⟩ := insertProgressUpdateStmt_ok h
  rw [hs]

/-- Shape of a committed objective-status UPDATE: either no row matched
(state untouched) or the matched row, with its date CHECK holding, is
rewritten to the requested status. -/
theorem updateObjectiveStatusStmt_ok {s : DBState} {id : Nat}
    {status : ObjectiveStatus} {today : ℤ} {r : Option ObjectiveRow}
    {s' : DBState}
    (h : updateObjectiveStatusStmt s id status today = .ok (r, s')) :
    (findObjectiveById s id = none ∧ r = none ∧ s' = s) ∨
      ∃ o, findObjectiveById s id = some o ∧ ¬ o.targetDate < today ∧
        r = some { o with status := status } ∧
        s' = { s with objectives := s.objectives.map (fun x =>
          if x.id = id then { o with status := status } else x) } := by
  unfold updateObjectiveStatusStmt at h
  split at h
  · rename_i hnone
    simp only [Except.ok.injEq, Prod.mk.injEq] at h
    exact Or.inl ⟨hnone, h.1.symm, h.2.symm⟩
  · rename_i o ho
    split at h
    · exact absurd h (by simp)
    · rename_i hdate
      simp only [Except.ok.injEq, Prod.mk.injEq] at h
      exact Or.inr ⟨o, ho, hdate, h.1.symm, h.2.symm⟩

/-- The completion check touches only `objectives`, and the only status
it ever writes is `completed`. -/
theorem checkAndUpdateObjectiveCompletion_ok {s : DBState} {objectiveId : Nat}
    {today : ℤ} {s' : DBState}
    (h : checkAndUpdateObjectiveCompletion s objectiveId today = .ok s') :
    s'.keyResults = s.keyResults ∧ s'.progressUpdates = s.progressUpdates ∧
      (s' = s ∨ ∃ o, findObjectiveById s objectiveId = some o ∧
        ¬ o.targetDate < today ∧
        s'.objectives = s.objectives.map (fun r =>
          if r.id = objectiveId then { o with status := .completed } else r)) := by
  unfold checkAndUpdateObjectiveCompletion at h
  split at h
  · split at h
    · exact absurd h (by simp)
    · rename_i r s2 heq
      simp only [Except.ok.injEq] at h
      subst h
      rcases updateObjectiveStatusStmt_ok heq with ⟨-, -, hs⟩ | ⟨o, ho, hdate, -, hs⟩
      · exact hs ▸ ⟨rfl, rfl, Or.inl rfl⟩
      · exact hs ▸ ⟨rfl, rfl, Or.inr ⟨o, ho, hdate, rfl⟩⟩
  · simp only [Except.ok.injEq] at h
    exact h ▸ ⟨rfl, rfl, Or.inl rfl⟩

/-- The completion check never throws while every objective it could
touch has a target date at or after today. -/
theorem checkAndUpdateObjectiveCompletion_no_error {s : DBState}
    {objectiveId : Nat} {today : ℤ}
    (hdate : ∀ o, findObjectiveById s objectiveId = some o → today ≤ o.targetDate) :
    ∃ s', checkAndUpdateObjectiveCompletion s objectiveId today = .ok s' := by
  have hupd : ∃ r s2,
      updateObjectiveStatusStmt s objectiveId .completed today = .ok (r, s2) := by
    unfold updateObjectiveStatusStmt
    split
    · exact ⟨none, s, rfl⟩
    · rename_i o ho
      rw [if_neg (not_lt.mpr (hdate o ho))]
      exact ⟨_, _, rfl⟩
  obtain ⟨r, s2, hr⟩ := hupd
  unfold checkAndUpdateObjectiveCompletion
  rw [hr]
  split
  · exact ⟨s2, rfl⟩
  · exact ⟨s, rfl⟩

/-- `least` agrees with the order-theoretic minimum. -/
theorem least_eq_min (a b : ℚ) : least a b = min a b := by
  unfold least
  split
  · exact (min_eq_left (by assumption)).symm
  · exact (min_eq_right (le_of_not_le (by assumption))).symm

/-! The claims. -/

/-- Claim C6: the objective completion decision, given the sibling key
result statuses, returns true iff the list is non-empty and every
element is `completed`; in particular the empty list yields false, so
an objective with no key results is never auto-completed. -/
theorem C6_shouldComplete_iff (siblingStatuses : List KeyResultStatus) :
    (shouldCompleteObjective siblingStatuses = true ↔
      siblingStatuses ≠ [] ∧
        ∀ st ∈ siblingStatuses, st = KeyResultStatus.completed) ∧
    shouldCompleteObjective [] = false := by
  constructor
  · simp [shouldCompleteObjective, List.all_eq_true, List.length_pos]
  · rfl

/-- Claim C2 (amended), counterexample part: the claim fails as stated.
At `currentValue = 1, targetValue = 3` the `completionPercentage`
exposed by `mapRowToKeyResult` is `33.33`, not the exact `100/3`; and at
`currentValue = -1` (possible only outside the CHECK-enforced domain)
the trigger returns `not_started` while the spec's priority order gives
`in_progress`. -/
theorem C2_counterexample :
    exposedCompletionPercentage 1 3 ≠ calculate_completion_percentage 1 3 ∧
    update_key_result_status (-1) 3 100 0 ≠ specPriorityStatus 3 (-1) 100 0 := by
  have h1 : calculate_completion_percentage 1 3 = 100 / 3 := by
    norm_num [calculate_completion_percentage, least]
  have h2 : exposedCompletionPercentage 1 3 = 3333 / 100 := by
    have hfloor : jsRound ((100 : ℚ) / 3 * 100) = 3333 := by
      unfold jsRound
      rw [show (100 : ℚ) / 3 * 100 + 1 / 2 = 20003 / 6 by norm_num]
      rw [Int.floor_eq_iff]
      norm_num
    unfold exposedCompletionPercentage
    rw [show calculateCompletionPercentage 1 3 = 100 / 3 by
      norm_num [calculateCompletionPercentage, least]]
    rw [hfloor]
    norm_num
  have h3 : update_key_result_status (-1) 3 100 0 = .not_started := by
    norm_num [update_key_result_status, calculate_completion_percentage, least]
  have h4 : specPriorityStatus 3 (-1) 100 0 = .in_progress := by
    norm_num [specPriorityStatus, min_def]
  refine ⟨?_, ?_⟩
  · rw [h1, h2]
    norm_num
  · rw [h3, h4]
    simp

/-- Claim C2 (amended): for every input with `currentValue ≥ 0` (the
domain the `key_results_current_value_valid` CHECK guarantees), the
completion percentage is `min(currentValue / targetValue * 100, 100)`
with 0 for a zero target, the trigger's status equals the first matching
rule of the spec's priority order, and the `completionPercentage`
exposed to callers is that exact value rounded to two decimal places
with JavaScript `Math.round` semantics. -/
theorem C2_state_calculator (targetValue currentValue : ℚ)
    (deadline today : ℤ) (hcur : 0 ≤ currentValue) :
    calculate_completion_percentage currentValue targetValue =
      (if targetValue = 0 then 0 else min (currentValue / targetValue * 100) 100) ∧
    update_key_result_status currentValue targetValue deadline today =
      specPriorityStatus targetValue currentValue deadline today ∧
    exposedCompletionPercentage currentValue targetValue =
      (jsRound (calculate_completion_percentage currentValue targetValue * 100) : ℚ) / 100 := by
  refine ⟨?_, ?_, rfl⟩
  · unfold calculate_completion_percentage
    rw [least_eq_min]
  · rcases eq_or_lt_of_le hcur with h0 | hpos
    · rw [← h0]
      by_cases ht : targetValue = 0 <;>
        norm_num [update_key_result_status, specPriorityStatus,
          calculate_completion_percentage, least, ht]
    · have hne : ¬ currentValue = 0 := ne_of_gt hpos
      simp only [update_key_result_status, specPriorityStatus,
        calculate_completion_percentage, least_eq_min]
      simp [hpos, hne]

/-- Claim C2 witness: the amended theorem applied at
`targetValue = 3, currentValue = 1, deadline = 100, today = 0`. -/
theorem C2_witness :
    (0 : ℚ) ≤ 1 ∧
    (calculate_completion_percentage 1 3 =
        (if (3 : ℚ) = 0 then 0 else min ((1 : ℚ) / 3 * 100) 100) ∧
      update_key_result_status 1 3 100 0 = specPriorityStatus 3 1 100 0 ∧
      exposedCompletionPercentage 1 3 =
        (jsRound (calculate_completion_percentage 1 3 * 100) : ℚ) / 100) :=
  ⟨by norm_num, C2_state_calculator 3 1 100 0 (by norm_num)⟩

/-- Claim C5: for a `deleteKeyResult` call on an existing key result,
the call fails with the business-rule error `MINIMUM_KEY_RESULTS_REQUIRED`
exactly when the parent objective would be left with fewer than 2 key
results (in particular always when exactly 2 remain), and then nothing
is deleted; otherwise the key result is deleted and the deletion
cascades to all of its progress updates. -/
theorem C5_deleteKeyResult (s : DBState) (keyResultId : Nat)
    (kr : KeyResultRow)
    (hkr : findKeyResultById s keyResultId = some kr) :
    ((findKeyResultsByObjectiveId s kr.objectiveId).length - 1 < 2 →
      deleteKeyResult s keyResultId =
        (.error (.app 400 "MINIMUM_KEY_RESULTS_REQUIRED"), s)) ∧
    (¬ (findKeyResultsByObjectiveId s kr.objectiveId).length - 1 < 2 →
      (deleteKeyResult s keyResultId).1 = .ok true ∧
      (deleteKeyResult s keyResultId).2.keyResults =
        s.keyResults.filter (fun r => ¬ r.id = keyResultId) ∧
      (deleteKeyResult s keyResultId).2.progressUpdates =
        s.progressUpdates.filter (fun pu => ¬ pu.keyResultId = keyResultId)) := by
  have hcount : ((findKeyResultsByObjectiveId s kr.objectiveId).length - 1 < 2) ↔
      (findKeyResultsByObjectiveId s kr.objectiveId).length ≤ 2 := by omega
  unfold deleteKeyResult
  rw [hkr]
  dsimp only
  constructor
  · intro h
    rw [if_pos (hcount.mp h)]
  · intro h
    rw [if_neg (fun hc => h (hcount.mpr hc))]
    have hkr' : s.keyResults.find? (fun r => r.id = keyResultId) = some kr := hkr
    have hp := List.find?_some hkr'
    have hany : s.keyResults.any (fun r => r.id = keyResultId) = true :=
      List.any_eq_true.mpr ⟨kr, List.mem_of_find?_eq_some hkr', hp⟩
    exact ⟨by rw [show (deleteKeyResultStmt s keyResultId).1 =
      s.keyResults.any (fun r => r.id = keyResultId) from rfl, hany], rfl, rfl⟩

/-- Claim C5 witness: deleting key result 3 of `exState`, whose
objective holds exactly 2 key results, is refused with the state
untouched. -/
theorem C5_witness :
    deleteKeyResult exState 3 =
      (.error (.app 400 "MINIMUM_KEY_RESULTS_REQUIRED"), exState) :=
  (C5_deleteKeyResult exState 3 exKrHalf (by with_unfolding_all decide)).1
    (by with_unfolding_all decide)

/-- Claim C8 counterexample: the claim says the transition
Abandoned → Active is rejected, but the PUT handler accepts it: on an
abandoned objective a status update to `"active"` succeeds and the
stored status becomes active. -/
theorem C8_counterexample :
    (findObjectiveById exStateAbandoned 1).map (fun o => o.status) =
      some ObjectiveStatus.abandoned ∧
    putObjectiveStatus exStateAbandoned 1 "active" 0 =
      (.ok (), ⟨[{ exObjective with status := .active }],
        [exKrDone, exKrHalf], [], 10⟩) := by
  with_unfolding_all decide

/-- Claim C8 (amended): the PUT status handler performs no transition
validation: for an existing objective whose target date has not passed,
any of the four enum statuses is accepted whatever the current status
(all sixteen transitions allowed), and the stored status becomes the
requested one; only a string outside the enumeration is rejected, with
the stored status unchanged. -/
theorem C8_putObjectiveStatus (s : DBState) (id : Nat) (status : String)
    (today : ℤ) (o : ObjectiveRow)
    (ho : findObjectiveById s id = some o)
    (hdate : today ≤ o.targetDate) :
    (validStatuses.contains status = true →
      putObjectiveStatus s id status today =
        (.ok (), { s with objectives := s.objectives.map (fun r =>
          if r.id = id then { o with status := parseObjectiveStatus status }
          else r) })) ∧
    (validStatuses.contains status = false →
      putObjectiveStatus s id status today =
        (.error (.app 400 "INVALID_STATUS"), s)) := by
  unfold putObjectiveStatus
  rw [ho]
  dsimp only
  constructor
  · intro hv
    rw [if_neg (fun hc => hc hv)]
    have hupd : updateObjectiveStatusStmt s id (parseObjectiveStatus status) today =
        .ok (some { o with status := parseObjectiveStatus status },
          { s with objectives := s.objectives.map (fun r =>
            if r.id = id then { o with status := parseObjectiveStatus status }
            else r) }) := by
      unfold updateObjectiveStatusStmt
      rw [ho]
      dsimp only
      rw [if_neg (not_lt.mpr hdate)]
    rw [hupd]
  · intro hv
    have hcond : ¬ validStatuses.contains status = true := fun htrue =>
      Bool.noConfusion (hv ▸ htrue)
    rw [if_pos hcond]

/-- Claim C8 witness: the amended theorem applied to an abandoned
objective and the status string `"archived"`. -/
theorem C8_witness :
    putObjectiveStatus exStateAbandoned 1 "archived" 0 =
      (.ok (), { exStateAbandoned with
        objectives := exStateAbandoned.objectives.map (fun r =>
          if r.id = 1 then
            { { exObjective with status := ObjectiveStatus.abandoned } with
              status := parseObjectiveStatus "archived" }
          else r) }) :=
  (C8_putObjectiveStatus exStateAbandoned 1 "archived" 0
      { exObjective with status := .abandoned }
      (by with_unfolding_all decide) (by decide)).1 (by decide)

/-- Looking an objective up depends only on the `objectives` table. -/
theorem findObjectiveById_congr {s t : DBState}
    (h : s.objectives = t.objectives) (id : Nat) :
    findObjectiveById s id = findObjectiveById t id := by
  unfold findObjectiveById
  rw [h]

/-- After `updateProgress` the objectives table is either untouched or
rewritten at exactly one id, with `completed` as the written status:
the only objective write the call can issue comes from the completion
check. -/
theorem updateProgress_state_cases (s : DBState) (req : UpdateProgressRequest)
    (today : ℤ) :
    (updateProgress s req today).2.objectives = s.objectives ∨
    ∃ objectiveId o, findObjectiveById s objectiveId = some o ∧
      (updateProgress s req today).2.objectives = s.objectives.map (fun r =>
        if r.id = objectiveId then { o with status := ObjectiveStatus.completed }
        else r) := by
  unfold updateProgress
  split
  · exact Or.inl rfl
  · rename_i keyResult hkr
    split
    · exact Or.inl rfl
    · split
      · exact Or.inl rfl
      · rename_i pu s1 hins
        have hobj1 : s1.objectives = s.objectives :=
          insertProgressUpdateStmt_objectives hins
        split
        · exact Or.inl hobj1
        · rename_i s2 hchk
          obtain ⟨-, -, hcase⟩ := checkAndUpdateObjectiveCompletion_ok hchk
          rcases hcase with rfl | ⟨o, ho, -, hmap⟩
          · exact Or.inl hobj1
          · refine Or.inr ⟨keyResult.objectiveId, o, ?_, ?_⟩
            · rw [← findObjectiveById_congr hobj1 keyResult.objectiveId]
              exact ho
            · show s2.objectives = _
              rw [hmap, hobj1]

/-- Claim C7 counterexample: the claim says the cascade never changes
the status of an Archived objective, but recording progress that
completes the last key result of an archived objective rewrites its
status to completed. -/
theorem C7_counterexample :
    (findObjectiveById exStateArchived 1).map (fun o => o.status) =
      some ObjectiveStatus.archived ∧
    (findObjectiveById (updateProgress exStateArchived ⟨3, 10, none⟩ 0).2 1).map
      (fun o => o.status) = some ObjectiveStatus.completed := by
  with_unfolding_all decide

/-- Claim C7 (amended): across any `recordProgress` call, every
objective's status is either unchanged or set to `Completed` — the
cascade never writes any other status, so in particular a Completed
objective is never demoted when a key result regresses below 100%.  It
does not, however, spare Archived or Abandoned objectives: the
completion check overwrites them to Completed as well (see the
counterexample). -/
theorem C7_cascade_one_directional (s : DBState) (req : UpdateProgressRequest)
    (today : ℤ) (objectiveId : Nat) (o o' : ObjectiveRow)
    (hbefore : findObjectiveById s objectiveId = some o)
    (hafter : findObjectiveById (updateProgress s req today).2 objectiveId = some o') :
    o'.status = o.status ∨ o'.status = ObjectiveStatus.completed := by
  rcases updateProgress_state_cases s req today with heq | ⟨kOid, ob, hob, hmap⟩
  · left
    unfold findObjectiveById at hafter
    rw [heq] at hafter
    rw [show s.objectives.find? (fun x => x.id = objectiveId) = some o from hbefore]
      at hafter
    cases hafter
    rfl
  · have hob' : s.objectives.find? (fun x => x.id = kOid) = some ob := hob
    have hpb := List.find?_some hob'
    have hobid : ob.id = kOid := of_decide_eq_true hpb
    have hp : ∀ a : ObjectiveRow,
        (fun x => decide (x.id = objectiveId))
          ((fun r => if r.id = kOid then { ob with status := ObjectiveStatus.completed }
            else r) a) =
        (fun x => decide (x.id = objectiveId)) a := by
      intro a
      by_cases ha : a.id = kOid
      · simp [ha, hobid]
      · simp [ha]
    unfold findObjectiveById at hafter
    rw [hmap, find?_map_of_pred_eq _ _ hp] at hafter
    rw [show s.objectives.find? (fun x => x.id = objectiveId) = some o from hbefore]
      at hafter
    simp only [Option.map_some'] at hafter
    by_cases hoid : o.id = kOid
    · right
      rw [if_pos hoid] at hafter
      cases hafter
      rfl
    · left
      rw [if_neg hoid] at hafter
      cases hafter
      rfl

/-- Claim C7 witness: the amended theorem applied to the fixture run
that completes the objective. -/
theorem C7_witness :
    ({ exObjective with status := ObjectiveStatus.completed } : ObjectiveRow).status =
        exObjective.status ∨
    ({ exObjective with status := ObjectiveStatus.completed } : ObjectiveRow).status =
        ObjectiveStatus.completed :=
  C7_cascade_one_directional exState ⟨3, 10, none⟩ 0 1 exObjective
    { exObjective with status := .completed }
    (by with_unfolding_all decide) (by with_unfolding_all decide)

/-- Claim C1 counterexample: the claim asserts the ledger insert, key
result update and objective transition commit in one atomic transaction,
with none observable without the others.  Running the fixture that
completes the last key result, the service commits two distinct stores
in sequence: after the first commit the progress update is visible and
both key results are completed while the objective still reads
`active`; only the second commit shows it `completed`.  The first store
is therefore observable with the insert committed but the transition
not. -/
theorem C1_counterexample :
    updateProgressCommits exState ⟨3, 10, none⟩ 0 =
      [{ exStateFinished with objectives := [exObjective] }, exStateFinished] ∧
    ({ exStateFinished with objectives := [exObjective] } : DBState).progressUpdates =
      [⟨10, 3, 10, none, 0⟩] ∧
    (findObjectiveById { exStateFinished with objectives := [exObjective] } 1).map
      (fun o => o.status) = some ObjectiveStatus.active ∧
    (findObjectiveById exStateFinished 1).map (fun o => o.status) =
      some ObjectiveStatus.completed := by
  with_unfolding_all decide

/-- Claim C1 (amended): when `recordProgress` returns successfully and
afterwards every key result of the parent objective is completed (and
there is at least one), the parent objective's stored status is
`completed` when the call returns — the transition happens inside the
same call, before returning, though in a separate transaction from the
ledger insert and key result update (see the counterexample). -/
theorem C1_completion_cascade (s : DBState) (req : UpdateProgressRequest)
    (today : ℤ) (kr : KeyResultRow) (pu : ProgressUpdateRow) (s' : DBState)
    (hkr : findKeyResultById s req.keyResultId = some kr)
    (hrun : updateProgress s req today = (.ok pu, s'))
    (hall : shouldCompleteObjective
      ((findKeyResultsByObjectiveId s' kr.objectiveId).map (fun r => r.status)) = true) :
    ∀ o, findObjectiveById s' kr.objectiveId = some o →
      o.status = ObjectiveStatus.completed := by
  unfold updateProgress at hrun
  rw [hkr] at hrun
  dsimp only at hrun
  split at hrun
  · simp at hrun
  · split at hrun
    · simp at hrun
    · rename_i pu1 s1 hins
      split at hrun
      · simp at hrun
      · rename_i s2 hchk
        simp only [Prod.mk.injEq, Except.ok.injEq] at hrun
        obtain ⟨-, hs'⟩ := hrun
        subst hs'
        intro o hfind
        obtain ⟨hkre, -, -⟩ := checkAndUpdateObjectiveCompletion_ok hchk
        have hall1 : shouldCompleteObjective
            ((findKeyResultsByObjectiveId s1 kr.objectiveId).map
              (fun r => r.status)) = true := by
          unfold findKeyResultsByObjectiveId at hall ⊢
          rw [← hkre]
          exact hall
        unfold checkAndUpdateObjectiveCompletion at hchk
        rw [if_pos hall1] at hchk
        split at hchk
        · exact absurd hchk (by simp)
        · rename_i r s3 hupd
          simp only [Except.ok.injEq] at hchk
          subst hchk
          rcases updateObjectiveStatusStmt_ok hupd with ⟨hnone, -, rfl⟩ |
            ⟨o0, ho0, -, -, hs2⟩
          · rw [hfind] at hnone
            exact Option.noConfusion hnone
          · have ho0' : s1.objectives.find? (fun x => x.id = kr.objectiveId) =
                some o0 := ho0
            have hpb := List.find?_some ho0'
            have hid0 : o0.id = kr.objectiveId := of_decide_eq_true hpb
            have hp : ∀ a : ObjectiveRow,
                (fun x => decide (x.id = kr.objectiveId))
                  ((fun x => if x.id = kr.objectiveId then
                    { o0 with status := ObjectiveStatus.completed } else x) a) =
                (fun x => decide (x.id = kr.objectiveId)) a := by
              intro a
              by_cases ha : a.id = kr.objectiveId
              · simp [ha, hid0]
              · simp [ha]
            unfold findObjectiveById at hfind
            rw [hs2] at hfind
            dsimp only at hfind
            rw [find?_map_of_pred_eq _ _ hp, ho0'] at hfind
            simp only [Option.map_some'] at hfind
            rw [if_pos hid0] at hfind
            cases hfind
            rfl

/-- Claim C1 witness: the amended theorem applied to the fixture run in
which recording value 10 on key result 3 completes the objective. -/
theorem C1_witness :
    (findObjectiveById exStateFinished 1).map (fun o => o.status) =
      some ObjectiveStatus.completed := by
  have h := C1_completion_cascade exState ⟨3, 10, none⟩ 0 exKrHalf
    ⟨10, 3, 10, none, 0⟩ exStateFinished (by with_unfolding_all decide)
    (by with_unfolding_all decide) (by with_unfolding_all decide)
  have h2 := h { exObjective with status := .completed }
    (by with_unfolding_all decide)
  rw [show findObjectiveById exStateFinished 1 =
    some { exObjective with status := ObjectiveStatus.completed } by
      with_unfolding_all decide]
  simp only [Option.map_some', h2]

/-- Claim C3 counterexample: the claim says a value exceeding
`targetValue` fails with a ValidationError, and that every value in
`[0, targetValue]` succeeds.  Recording 11 against target 10 instead
surfaces the database CHECK violation `key_results_current_value_valid`
(a 500-class raw error, not a `createError` 400); and on an objective
whose target date has passed, recording the in-range value 10 also
fails — with `objectives_target_date_future` — after the progress
update has already been committed. -/
theorem C3_counterexample :
    updateProgress exState ⟨3, 11, none⟩ 0 =
      (.error (.db "key_results_current_value_valid"), exState) ∧
    (updateProgress exStatePastDue ⟨3, 10, none⟩ 0).1 =
      .error (.db "objectives_target_date_future") ∧
    (updateProgress exStatePastDue ⟨3, 10, none⟩ 0).2.progressUpdates =
      [⟨10, 3, 10, none, 0⟩] := by
  with_unfolding_all decide

/-- Claim C3 (amended): for `recordProgress` on an existing key result
with valid notes, the call fails with ValidationError
(`createError(400, 'INVALID_PROGRESS_VALUE')`) exactly when
`valueRecorded < 0`; a value exceeding `targetValue` also fails — with
the raw database error `key_results_current_value_valid`, not a
ValidationError — and in both failure cases nothing is persisted and
the key result is unchanged; for `0 ≤ valueRecorded ≤ targetValue`,
provided the parent objective's target date has not passed, the call
returns the created progress update, which is persisted, and the key
result's stored value and recomputed status. -/
theorem C3_recordProgress_validation (s : DBState)
    (req : UpdateProgressRequest) (today : ℤ) (kr : KeyResultRow)
    (hkr : findKeyResultById s req.keyResultId = some kr)
    (hnotes : optionalLength req.notes ≤ 1000) :
    (req.valueRecorded < 0 →
      updateProgress s req today =
        (.error (.app 400 "INVALID_PROGRESS_VALUE"), s)) ∧
    (0 ≤ req.valueRecorded → req.valueRecorded > kr.targetValue →
      updateProgress s req today =
        (.error (.db "key_results_current_value_valid"), s)) ∧
    (0 ≤ req.valueRecorded → req.valueRecorded ≤ kr.targetValue →
      (∀ o, findObjectiveById s kr.objectiveId = some o → today ≤ o.targetDate) →
      (updateProgress s req today).1 =
        .ok ⟨s.nextId, req.keyResultId, req.valueRecorded, req.notes, today⟩ ∧
      (⟨s.nextId, req.keyResultId, req.valueRecorded, req.notes, today⟩ :
        ProgressUpdateRow) ∈ (updateProgress s req today).2.progressUpdates ∧
      findKeyResultById (updateProgress s req today).2 req.keyResultId =
        some { kr with
                currentValue := req.valueRecorded,
                status := update_key_result_status req.valueRecorded
                  kr.targetValue kr.deadline today }) := by
  have hnotes' : ¬ optionalLength req.notes > 1000 := not_lt.mpr hnotes
  have hkr' : s.keyResults.find? (fun r => r.id = req.keyResultId) = some kr := hkr
  have hpk := List.find?_some hkr'
  have hid : kr.id = req.keyResultId := of_decide_eq_true hpk
  refine ⟨?_, ?_, ?_⟩
  · intro hneg
    unfold updateProgress
    rw [hkr]
    dsimp only
    rw [if_pos hneg]
  · intro hge hgt
    unfold updateProgress
    rw [hkr]
    dsimp only
    rw [if_neg (not_lt.mpr hge)]
    have hins : insertProgressUpdateStmt s req.keyResultId req.valueRecorded
        req.notes today = .error (.db "key_results_current_value_valid") := by
      unfold insertProgressUpdateStmt
      rw [if_neg (not_lt.mpr hge), if_neg hnotes', hkr]
      dsimp only
      rw [if_pos hgt]
    rw [hins]
  · intro hge hle hdates
    set krUpd : KeyResultRow :=
      { kr with
          currentValue := req.valueRecorded,
          status := update_key_result_status req.valueRecorded kr.targetValue
            kr.deadline today } with hkrUpd
    set pu0 : ProgressUpdateRow :=
      ⟨s.nextId, req.keyResultId, req.valueRecorded, req.notes, today⟩ with hpu0
    set s1 : DBState := { s with
      keyResults := s.keyResults.map (fun r =>
        if r.id = req.keyResultId then krUpd else r)
      progressUpdates := s.progressUpdates ++ [pu0]
      nextId := s.nextId + 1 } with hs1
    have hins : insertProgressUpdateStmt s req.keyResultId req.valueRecorded
        req.notes today = .ok (pu0, s1) := by
      unfold insertProgressUpdateStmt
      rw [if_neg (not_lt.mpr hge), if_neg hnotes', hkr]
      dsimp only
      rw [if_neg (not_lt.mpr hle)]
    have hd1 : ∀ o, findObjectiveById s1 kr.objectiveId = some o →
        today ≤ o.targetDate := by
      intro o ho
      apply hdates
      have hcongr : findObjectiveById s1 kr.objectiveId =
          findObjectiveById s kr.objectiveId := findObjectiveById_congr rfl _
      rw [hcongr] at ho
      exact ho
    obtain ⟨s2, hchk⟩ := checkAndUpdateObjectiveCompletion_no_error hd1
    obtain ⟨hkre, hpue, -⟩ := checkAndUpdateObjectiveCompletion_ok hchk
    unfold updateProgress
    rw [hkr]
    dsimp only
    rw [if_neg (not_lt.mpr hge), hins]
    dsimp only
    rw [hchk]
    refine ⟨rfl, ?_, ?_⟩
    · show pu0 ∈ s2.progressUpdates
      rw [hpue]
      exact List.mem_append_right _ (List.mem_singleton.mpr rfl)
    · show findKeyResultById s2 req.keyResultId = some krUpd
      unfold findKeyResultById
      rw [hkre]
      have hp : ∀ a : KeyResultRow,
          (fun r => decide (r.id = req.keyResultId))
            ((fun r => if r.id = req.keyResultId then krUpd else r) a) =
          (fun r => decide (r.id = req.keyResultId)) a := by
        intro a
        by_cases ha : a.id = req.keyResultId
        · simp [ha, hkrUpd, hid]
        · simp [ha]
      show (s.keyResults.map (fun r =>
        if r.id = req.keyResultId then krUpd else r)).find?
          (fun r => r.id = req.keyResultId) = some krUpd
      rw [find?_map_of_pred_eq _ _ hp, hkr']
      simp only [Option.map_some']
      rw [if_pos hid]

/-- Claim C3 witness: the amended theorem applied to recording the
in-range value 7 on key result 3 of the fixture. -/
theorem C3_witness :
    (updateProgress exState ⟨3, 7, none⟩ 0).1 =
      .ok ⟨10, 3, 7, none, 0⟩ := by
  have h := (C3_recordProgress_validation exState ⟨3, 7, none⟩ 0 exKrHalf
    (by with_unfolding_all decide) (by decide)).2.2 (by norm_num)
    (by with_unfolding_all decide)
    (by
      intro o ho
      rw [show findObjectiveById exState exKrHalf.objectiveId =
        some exObjective by with_unfolding_all decide] at ho
      cases ho
      decide)
  exact h.1

/-- Claim C9 counterexample: the claim says recomputing a stored key
result's status at the moment of recomputation always matches the
stored status.  Recording value 3 (30% of target 10, deadline day 20)
at day 0 stores `in_progress`; recomputing from the same stored raw
data at day 10 — deadline now under 14 days away — yields `at_risk`,
which differs from the stored status. -/
theorem C9_counterexample :
    (findKeyResultById (updateProgress exStateTrend ⟨3, 3, none⟩ 0).2 3).map
      (fun r => (r.currentValue, r.targetValue, r.deadline, r.status)) =
      some (3, 10, 20, KeyResultStatus.in_progress) ∧
    update_key_result_status 3 10 20 10 = KeyResultStatus.at_risk ∧
    KeyResultStatus.at_risk ≠ KeyResultStatus.in_progress := by
  with_unfolding_all decide

/-- Claim C9 (amended): the stored status matches the state calculator
applied to the stored `currentValue`/`targetValue`/`deadline` with
`today` taken as the date of the status-computing write, not the moment
of a later recomputation: after any successful `recordProgress` at date
`today` the written key result satisfies this, and a freshly inserted
key result does as well.  At a later date the recomputation can drift
from the stored status, because the at-risk rule reads the current
date (see the counterexample). -/
theorem C9_status_recompute_at_write (s : DBState) (today : ℤ) :
    (∀ req pu s', updateProgress s req today = (.ok pu, s') →
      ∀ kr', findKeyResultById s' req.keyResultId = some kr' →
        kr'.status = update_key_result_status kr'.currentValue kr'.targetValue
          kr'.deadline today) ∧
    (∀ objectiveId description targetValue unit deadline kr s',
      insertKeyResultStmt s objectiveId description targetValue unit deadline
        today = .ok (kr, s') →
      kr.status = update_key_result_status kr.currentValue kr.targetValue
        kr.deadline today) := by
  constructor
  · intro req pu s' hrun kr' hfind
    unfold updateProgress at hrun
    split at hrun
    · simp at hrun
    · rename_i kr0 hkr0
      split at hrun
      · simp at hrun
      · split at hrun
        · simp at hrun
        · rename_i pu1 s1 hins
          split at hrun
          · simp at hrun
          · rename_i s2 hchk
            simp only [Prod.mk.injEq, Except.ok.injEq] at hrun
            obtain ⟨-, hs'⟩ := hrun
            subst hs'
            obtain ⟨hkre, -, -⟩ := checkAndUpdateObjectiveCompletion_ok hchk
            obtain ⟨kr1, hkr1, -, -, -, hs1⟩ := insertProgressUpdateStmt_ok hins
            unfold findKeyResultById at hfind
            rw [hkre, hs1] at hfind
            dsimp only at hfind
            have hkr1' : s.keyResults.find? (fun r => r.id = req.keyResultId) =
                some kr1 := hkr1
            have hpk := List.find?_some hkr1'
            have hid : kr1.id = req.keyResultId := of_decide_eq_true hpk
            have hp : ∀ a : KeyResultRow,
                (fun r => decide (r.id = req.keyResultId))
                  ((fun r => if r.id = req.keyResultId then
                    { kr1 with
                        currentValue := req.valueRecorded,
                        status := update_key_result_status req.valueRecorded
                          kr1.targetValue kr1.deadline today }
                    else r) a) =
                (fun r => decide (r.id = req.keyResultId)) a := by
              intro a
              by_cases ha : a.id = req.keyResultId
              · simp [ha, hid]
              · simp [ha]
            rw [find?_map_of_pred_eq _ _ hp, hkr1'] at hfind
            simp only [Option.map_some'] at hfind
            rw [if_pos hid] at hfind
            cases hfind
            rfl
  · intro objectiveId description targetValue unit deadline kr s' h
    unfold insertKeyResultStmt at h
    split at h
    · simp at h
    · split at h
      · simp at h
      · split at h
        · simp at h
        · split at h
          · simp at h
          · simp only [Except.ok.injEq, Prod.mk.injEq] at h
            obtain ⟨hk, -⟩ := h
            subst hk
            rfl

/-- Shape of a committed objective insert. -/
theorem insertObjectiveStmt_ok {s : DBState} {userId : Nat} {title : String}
    {description : Option String} {category : String} {targetDate today : ℤ}
    {o : ObjectiveRow} {s' : DBState}
    (h : insertObjectiveStmt s userId title description category targetDate
      today = .ok (o, s')) :
    o = ⟨s.nextId, userId, title, description, category, targetDate, .active⟩ ∧
    s' = { s with objectives := s.objectives ++ [o], nextId := s.nextId + 1 } := by
  unfold insertObjectiveStmt at h
  split at h
  · simp at h
  · split at h
    · simp at h
    · simp only [Except.ok.injEq, Prod.mk.injEq] at h
      obtain ⟨ho, hs⟩ := h
      subst ho
      exact ⟨rfl, hs.symm⟩

/-- A committed key-result insert appends the row and leaves
`objectives` alone. -/
theorem insertKeyResultStmt_shape {s : DBState} {objectiveId : Nat}
    {description : String} {targetValue : ℚ} {unit : String}
    {deadline today : ℤ} {kr : KeyResultRow} {s' : DBState}
    (h : insertKeyResultStmt s objectiveId description targetValue unit
      deadline today = .ok (kr, s')) :
    s'.keyResults = s.keyResults ++ [kr] ∧ s'.objectives = s.objectives := by
  unfold insertKeyResultStmt at h
  split at h
  · simp at h
  · split at h
    · simp at h
    · split at h
      · simp at h
      · split at h
        · simp at h
        · simp only [Except.ok.injEq, Prod.mk.injEq] at h
          obtain ⟨hk, hs⟩ := h
          subst hk
          rw [← hs]
          exact ⟨rfl, rfl⟩

/-- When every key-result insert of the `Promise.all` succeeds, the
store gains exactly one row per spec and its objectives are untouched. -/
theorem insertAllKeyResults_ok :
    ∀ (specs : List KeyResultSpec) (s : DBState) (objectiveId : Nat)
      (today : ℤ) (s2 : DBState),
      insertAllKeyResults s objectiveId specs today = (s2, none) →
      s2.keyResults.length = s.keyResults.length + specs.length ∧
      s2.objectives = s.objectives := by
  intro specs
  induction specs with
  | nil =>
    intro s oid today s2 h
    unfold insertAllKeyResults at h
    simp only [Prod.mk.injEq] at h
    rw [← h.1]
    simp
  | cons spec rest ih =>
    intro s oid today s2 h
    unfold insertAllKeyResults at h
    split at h
    · simp at h
    · rename_i kr1 s1 hins
      obtain ⟨hlen, hobj⟩ := ih s1 oid today s2 h
      obtain ⟨hkre, hobje⟩ := insertKeyResultStmt_shape hins
      constructor
      · rw [hlen, hkre]
        simp only [List.length_append, List.length_cons, List.length_nil]
        omega
      · rw [hobj, hobje]

/-- Claim C4 counterexample: the claim says creation is atomic — on any
error nothing is persisted and no objective is ever left with fewer
than 2 key results.  Submitting a request whose second key result has a
9-character description (under the CHECK minimum of 10) passes every
service-level validation, commits the objective and the first key
result, then fails: the error surfaces with the objective persisted
alongside a single key result. -/
theorem C4_counterexample :
    (createObjectiveWithKeyResults ⟨[], [], [], 1⟩ exBadCreateRequest 0).1 =
      .error (.db "key_results_description_length") ∧
    (createObjectiveWithKeyResults ⟨[], [], [], 1⟩ exBadCreateRequest 0).2.objectives.length = 1 ∧
    (createObjectiveWithKeyResults ⟨[], [], [], 1⟩ exBadCreateRequest 0).2.keyResults.length = 1 := by
  with_unfolding_all decide

/-- Claim C4 (amended): the two service-level validations (key-result
count outside 2–5, a deadline after the target date) reject the request
before anything is persisted, and a call that returns success has
persisted the objective and every one of its 2–5 key results; but the
statements are not wrapped in a transaction, so a key-result insert
failure leaves the objective row — and the other successfully inserted
key results — committed (see the counterexample). -/
theorem C4_createObjective (s : DBState) (data : CreateObjectiveRequest)
    (today : ℤ) :
    (data.keyResults.length < 2 ∨ data.keyResults.length > 5 →
      createObjectiveWithKeyResults s data today =
        (.error (.app 400 "INVALID_KEY_RESULTS_COUNT"), s)) ∧
    (¬ (data.keyResults.length < 2 ∨ data.keyResults.length > 5) →
      (data.keyResults.filter (fun kr =>
        kr.deadline > data.targetDate)).length > 0 →
      createObjectiveWithKeyResults s data today =
        (.error (.app 400 "INVALID_DEADLINE"), s)) ∧
    (∀ r s', createObjectiveWithKeyResults s data today = (.ok r, s') →
      2 ≤ data.keyResults.length ∧ data.keyResults.length ≤ 5 ∧
      s'.objectives.length = s.objectives.length + 1 ∧
      s'.keyResults.length = s.keyResults.length + data.keyResults.length) := by
  refine ⟨?_, ?_, ?_⟩
  · intro hc
    unfold createObjectiveWithKeyResults
    rw [if_pos hc]
  · intro hc hd
    unfold createObjectiveWithKeyResults
    rw [if_neg hc, if_pos hd]
  · intro r s' h
    unfold createObjectiveWithKeyResults at h
    split at h
    · simp at h
    · rename_i hc
      split at h
      · simp at h
      · split at h
        · simp at h
        · rename_i obj s1 hobjins
          split at h
          · simp at h
          · rename_i s2 hall
            simp only [Prod.mk.injEq, Except.ok.injEq] at h
            obtain ⟨-, hs'⟩ := h
            subst hs'
            obtain ⟨-, hs1⟩ := insertObjectiveStmt_ok hobjins
            obtain ⟨hlen, hobjeq⟩ :=
              insertAllKeyResults_ok data.keyResults s1 obj.id today s2 hall
            refine ⟨by omega, by omega, ?_, ?_⟩
            · rw [hobjeq, hs1]
              simp
            · rw [hlen, hs1]

/-- One step of the batch loop, unfolded. -/
theorem batchLoop_cons (s : DBState) (u : UpdateProgressRequest)
    (rest : List UpdateProgressRequest) (today : ℤ)
    (acc : List ProgressUpdateRow) (oids : List Nat) :
    batchLoop s (u :: rest) today acc oids =
      match findKeyResultById s u.keyResultId with
      | none => (.error (.app 404 "KEY_RESULT_NOT_FOUND"), s)
      | some keyResult =>
        match insertProgressUpdateStmt s u.keyResultId u.valueRecorded
            u.notes today with
        | .error e => (.error e, s)
        | .ok (pu, s') =>
          batchLoop s' rest today (acc ++ [pu])
            (if oids.contains keyResult.objectiveId then oids
             else oids ++ [keyResult.objectiveId]) := rfl

/-- The batch loop processes a concatenation by running the first part
and continuing from its state — or stopping at its error. -/
theorem batchLoop_append :
    ∀ (xs : List UpdateProgressRequest) (s : DBState)
      (ys : List UpdateProgressRequest) (today : ℤ)
      (acc : List ProgressUpdateRow) (oids : List Nat),
      batchLoop s (xs ++ ys) today acc oids =
        match batchLoop s xs today acc oids with
        | (.ok (acc', oids'), s') => batchLoop s' ys today acc' oids'
        | (.error e, s') => (.error e, s') := by
  intro xs
  induction xs with
  | nil =>
    intro s ys today acc oids
    rfl
  | cons u rest ih =>
    intro s ys today acc oids
    rw [List.cons_append, batchLoop_cons, batchLoop_cons]
    cases hf : findKeyResultById s u.keyResultId with
    | none => rfl
    | some kr =>
      cases hins : insertProgressUpdateStmt s u.keyResultId u.valueRecorded
          u.notes today with
      | error e => rfl
      | ok pair =>
        obtain ⟨pu, s'⟩ := pair
        exact ih s' ys today (acc ++ [pu]) _

/-- Every progress update the batch loop has created is present in the
store it hands back on success: inserts only append. -/
theorem batchLoop_ok_mem :
    ∀ (updates : List UpdateProgressRequest) (s : DBState) (today : ℤ)
      (acc : List ProgressUpdateRow) (oids : List Nat)
      (pus : List ProgressUpdateRow) (oids' : List Nat) (s1 : DBState),
      batchLoop s updates today acc oids = (.ok (pus, oids'), s1) →
      (∀ pu ∈ acc, pu ∈ s.progressUpdates) →
      ∀ pu ∈ pus, pu ∈ s1.progressUpdates := by
  intro updates
  induction updates with
  | nil =>
    intro s today acc oids pus oids' s1 h hacc
    unfold batchLoop at h
    simp only [Prod.mk.injEq, Except.ok.injEq] at h
    obtain ⟨⟨hpus, -⟩, hs⟩ := h
    subst hs
    subst hpus
    exact hacc
  | cons u rest ih =>
    intro s today acc oids pus oids' s1 h hacc
    rw [batchLoop_cons] at h
    cases hf : findKeyResultById s u.keyResultId with
    | none =>
      rw [hf] at h
      simp at h
    | some kr =>
      rw [hf] at h
      cases hins : insertProgressUpdateStmt s u.keyResultId u.valueRecorded
          u.notes today with
      | error e =>
        rw [hins] at h
        simp at h
      | ok pair =>
        obtain ⟨pu1, s'⟩ := pair
        rw [hins] at h
        refine ih s' today (acc ++ [pu1]) _ pus oids' s1 h ?_
        intro pu hpu
        obtain ⟨kr0, -, -, -, -, hs'⟩ := insertProgressUpdateStmt_ok hins
        rw [hs']
        dsimp only
        rcases List.mem_append.mp hpu with hl | hr
        · exact List.mem_append_left _ (hacc pu hl)
        · exact List.mem_append_right _ hr

/-- Claim C10: when a batch entry references a nonexistent key result,
`batchUpdateProgress` fails with the NotFound error, yet the store it
leaves behind is exactly the one reached after the preceding entries —
every progress update created for them stays persisted (their key
results updated by the insert triggers), with no rollback of the batch;
and unlike the single-update path, a negative `valueRecorded` is not
rejected at the service layer: the single entry fails with the database
CHECK `progress_updates_value_positive`, where `updateProgress` on the
same request fails with the service-level `INVALID_PROGRESS_VALUE`. -/
theorem C10_batchUpdateProgress (s s1 : DBState)
    (processed : List UpdateProgressRequest) (u : UpdateProgressRequest)
    (rest : List UpdateProgressRequest) (today : ℤ)
    (pus : List ProgressUpdateRow) (oids : List Nat)
    (hpre : batchLoop s processed today [] [] = (.ok (pus, oids), s1))
    (hmiss : findKeyResultById s1 u.keyResultId = none) :
    batchUpdateProgress s (processed ++ u :: rest) today =
      (.error (.app 404 "KEY_RESULT_NOT_FOUND"), s1) ∧
    (∀ pu ∈ pus, pu ∈ s1.progressUpdates) ∧
    (∀ req kr, findKeyResultById s req.keyResultId = some kr →
      req.valueRecorded < 0 →
      batchUpdateProgress s [req] today =
        (.error (.db "progress_updates_value_positive"), s) ∧
      updateProgress s req today =
        (.error (.app 400 "INVALID_PROGRESS_VALUE"), s)) := by
  refine ⟨?_,
    batchLoop_ok_mem processed s today [] [] pus oids s1 hpre (by simp), ?_⟩
  · unfold batchUpdateProgress
    rw [batchLoop_append, hpre]
    dsimp only
    rw [batchLoop_cons, hmiss]
  · intro req kr hkr hneg
    have hins : insertProgressUpdateStmt s req.keyResultId req.valueRecorded
        req.notes today = .error (.db "progress_updates_value_positive") := by
      unfold insertProgressUpdateStmt
      rw [if_pos hneg]
    constructor
    · unfold batchUpdateProgress
      rw [batchLoop_cons, hkr]
      dsimp only
      rw [hins]
    · unfold updateProgress
      rw [hkr]
      dsimp only
      rw [if_pos hneg]

/-- Claim C10 witness: a two-entry batch whose second entry references
the nonexistent key result 99 fails with NotFound while the first
entry's progress update (value 7 on key result 3) stays persisted. -/
theorem C10_witness :
    batchUpdateProgress exState [⟨3, 7, none⟩, ⟨99, 1, none⟩] 0 =
      (.error (.app 404 "KEY_RESULT_NOT_FOUND"), exStateBatchMid) ∧
    (⟨10, 3, 7, none, 0⟩ : ProgressUpdateRow) ∈
      exStateBatchMid.progressUpdates := by
  have h := C10_batchUpdateProgress exState exStateBatchMid [⟨3, 7, none⟩]
    ⟨99, 1, none⟩ [] 0 [⟨10, 3, 7, none, 0⟩] [1]
    (by with_unfolding_all decide) (by with_unfolding_all decide)
  refine ⟨?_, h.2.1 ⟨10, 3, 7, none, 0⟩ (by simp)⟩
  simpa using h.1

end AgiemmePlanner
